import Mathlib

/-!
Verification development for the `norwegian_blue` robot-battle simulator
(`src/rrobot/game.py`).  The engine state and its operations are embedded
shallowly over exact rationals (`ℚ` models Python's real-valued floats).
Transcendental library functions (`math.cos`, `math.sin`, the angle-of-vector
computation inside `rrobot.maths.is_in_angle`) have no exact rational values in
general, so they are supplied as an explicit `MathsOracle` parameter; theorems
quantify over the oracle, and the concrete runs below instantiate it with
rational values that agree with the real functions at every argument those runs
actually evaluate (heading `0`, axis-aligned or zero displacement vectors).

The modules `rrobot/maths.py` and `rrobot/settings.py` are not part of the
sources; the functions `seg_intersect`, `is_in_angle` and `get_inverse_square`
and the settings record are modelled from the specification (spec.md sections
4.1 and 6), as flagged in their doc comments.
-/

/-- Propositional equality on `Except` results is decidable componentwise;
used to evaluate closed-form runs. -/
instance {ε α : Type} [DecidableEq ε] [DecidableEq α] : DecidableEq (Except ε α) :=
  fun x y =>
    match x, y with
    | .ok a, .ok b =>
      if h : a = b then .isTrue (by rw [h]) else .isFalse (by simp [h])
    | .error a, .error b =>
      if h : a = b then .isTrue (by rw [h]) else .isFalse (by simp [h])
    | .ok _, .error _ => .isFalse (by simp)
    | .error _, .ok _ => .isFalse (by simp)

namespace RRobot

/-- Oracle for the transcendental functions used by the engine: `math.cos`,
`math.sin`, the angle of a displacement vector (Python's `math.atan2 dy dx`,
which is `0` on the zero vector), and the circle constant `2*pi` used by the
wrap-around angle comparison.  Game definitions are parametric in this oracle;
a concrete instantiation is only used for closed-form runs, at arguments where
the intended real values are rational (documented at each instantiation). -/
structure MathsOracle where
  cos : ℚ → ℚ
  sin : ℚ → ℚ
  atan2 : ℚ → ℚ → ℚ
  twoPi : ℚ

/-- 2D cross product of two vectors, used by the parametric segment
intersection. -/
def cross (v w : ℚ × ℚ) : ℚ := v.1 * w.2 - v.2 * w.1

/-- Modelled from the spec: `rrobot.maths.seg_intersect` is not under `src/`.
Spec 4.1: "standard parametric line intersection; returns the intersection
point only if both segments' parameters lie in [0,1] (a true crossing, not an
extension). Parallel/collinear segments return no intersection. ... treat a
near-zero denominator as 'no intersection'" (exactly zero over `ℚ`). -/
def seg_intersect (a1 a2 b1 b2 : ℚ × ℚ) : Option (ℚ × ℚ) :=
  let r := (a2.1 - a1.1, a2.2 - a1.2)
  let s := (b2.1 - b1.1, b2.2 - b1.2)
  let denom := cross r s
  if denom = 0 then none
  else
    let q := (b1.1 - a1.1, b1.2 - a1.2)
    let t := cross q s / denom
    let u := cross q r / denom
    if 0 ≤ t ∧ t ≤ 1 ∧ 0 ≤ u ∧ u ≤ 1 then
      some (a1.1 + t * r.1, a1.2 + t * r.2)
    else none

/-- Squared euclidean distance between two points. -/
def dist2 (a b : ℚ × ℚ) : ℚ := (b.1 - a.1) ^ 2 + (b.2 - a.2) ^ 2

/-- Modelled from the spec: `rrobot.maths.is_in_angle` is not under `src/`.
Spec 4.1: "true if `point` lies within ± coneWidth/2 radians of `heading`,
measured from `origin`, using circular (wrap-around) angle comparison".  The
bearing of the displacement is the oracle's `atan2`; the wrap-around
comparison reduces the angular difference modulo `2*pi` into `[-pi, pi]` and
compares its absolute value with half the cone width.  A coincident point has
bearing `atan2 0 0 = 0` (the Python convention; the attack resolver's
point-blank branch, game.py:86-87, requires coincident targets to be
attackable). -/
def is_in_angle (m : MathsOracle) (origin : ℚ × ℚ) (heading angle : ℚ)
    (point : ℚ × ℚ) : Bool :=
  let bearing := m.atan2 (point.2 - origin.2) (point.1 - origin.1)
  let diff := bearing - heading
  let wrapped := diff - m.twoPi * (round (diff / m.twoPi) : ℤ)
  decide (|wrapped| ≤ angle / 2)

/-- Modelled from the spec: `rrobot.maths.get_inverse_square` is not under
`src/`.  Spec 4.1: "returns `peak` when distance(a,b) is 0 (point-blank
maximum), otherwise `min(peak, peak / distance(a,b)²)`". -/
def get_inverse_square (a b : ℚ × ℚ) (peak : ℚ) : ℚ :=
  if dist2 a b = 0 then peak else min peak (peak / dist2 a b)

/-- Python's `int()` conversion: truncation toward zero. -/
def int_trunc (q : ℚ) : ℤ := if 0 ≤ q then ⌊q⌋ else ⌈q⌉

/-- Modelled from the spec: `rrobot.settings` is not under `src/`.  Spec 6
lists the configuration keys read by `game.py`: battlefield width/height,
maximum speed, attack cone angle, peak attack damage, maximum turn count.
(The inter-turn pacing interval `radar_interval` only feeds `asyncio.sleep`,
which the spec declares correctness-irrelevant, and is omitted.) -/
structure Settings where
  battlefield_size : ℚ × ℚ
  max_speed : ℚ
  attack_angle : ℚ
  attack_damage : ℚ
  max_turns : ℕ
deriving DecidableEq

/-- One robot record of `Game._robots` (game.py:30-37).  `instance` is the
controller object; the engine only reads its class name (modelled here) and
its stable integer id, which equals the record's index in the list.  `then'`
models the `then` key (timestamp of last move, initially `None`). -/
structure RobotRec where
  className : String
  coords : ℚ × ℚ
  speed : ℚ
  damage : ℚ
  heading : ℚ
  then' : Option ℚ
deriving DecidableEq, Repr

/-- Notifications delivered to controllers (`started`, `radar_updated`,
`attacked`, `bumped` generator sends). -/
inductive Event where
  | started (id : ℕ) (coords : ℚ × ℚ)
  | radar_updated (id : ℕ) (radar : List (String × (ℚ × ℚ)))
  | attacked (id : ℕ) (attackerName : String)
  | bumped (id : ℕ) (bumper : String)
deriving DecidableEq, Repr

/-- Commands a controller can issue through the engine's command API while
handling a notification. -/
inductive Command where
  | set_heading (id : ℕ) (rads : ℚ)
  | set_speed (id : ℕ) (mps : ℚ)
  | attack (id : ℕ)
deriving DecidableEq, Repr

/-- Abort conditions of the Python code: `badIndex` models an `IndexError`
from `self._robots[robot_id]` with an out-of-range id, `unpackBumps` the
`TypeError`/`ValueError` raised at game.py:191 when the dict-of-dicts returned
by `_get_intersections` (see its doctest, game.py:144-160) is unpacked as if
its keys were `(a_id, b_id)` pairs, and `noneThen` the `TypeError` of
`now - None` in `_get_line_seg`. -/
inductive Err where
  | badIndex
  | unpackBumps
  | noneThen
deriving DecidableEq, Repr

/-- A controller implementation, modelled as the commands it issues while
handling each notification; the command lists may depend on everything the
controller can observe through the read API (the whole robot list).  Handlers
for `attacked`/`bumped` notifications are modelled as pure receivers issuing
no further commands (this excludes re-entrant attack cascades, which no claim
is about). -/
structure Policy where
  onStarted : ℕ → (ℚ × ℚ) → List RobotRec → List Command
  onRadar : ℕ → List (String × (ℚ × ℚ)) → List RobotRec → List Command

/-- `Game.active_robots` (game.py:100-104): the robots with damage < 100, in
creation order.  The Python method returns the list of (mutable) robot dicts;
since a dict's identity is its index in `Game._robots`, the model returns the
indices. -/
def active_robots (robots : List RobotRec) : List ℕ :=
  ((robots.enum.filter fun p => decide (p.2.damage < 100)).map fun p => p.1)

/-- `Game.set_heading` (game.py:58-60): store the heading unchanged. -/
def set_heading (robots : List RobotRec) (robot_id : ℕ) (rads : ℚ) :
    Except (Err × List RobotRec) (List RobotRec) :=
  match robots[robot_id]? with
  | none => .error (.badIndex, robots)
  | some r => .ok (robots.set robot_id { r with heading := rads })

/-- `Game.set_speed` (game.py:65-67): clamp with `min(mps, max_speed)` (no
lower clamp) and store. -/
def set_speed (cfg : Settings) (robots : List RobotRec) (robot_id : ℕ)
    (mps : ℚ) : Except (Err × List RobotRec) (List RobotRec) :=
  match robots[robot_id]? with
  | none => .error (.badIndex, robots)
  | some r => .ok (robots.set robot_id { r with speed := min mps cfg.max_speed })

/-- The damage computed by `Game.attack` for one target (game.py:86-92):
the configured peak at identical coordinates, otherwise
`int(min(peak, get_inverse_square(...)))`, truncated toward zero. -/
def attack_dmg (cfg : Settings) (attacker target : RobotRec) : ℚ :=
  if attacker.coords = target.coords then cfg.attack_damage
  else (int_trunc (min cfg.attack_damage
    (get_inverse_square attacker.coords target.coords cfg.attack_damage)) : ℚ)

/-- One iteration of the target loop of `Game.attack` (game.py:80-98): if the
target is inside the attacker's cone and the computed damage is nonzero
(`if damage:`), add it to the target's accumulator and deliver an `attacked`
notification carrying the attacker's class name.  Attacker fields are re-read
from the current state each iteration, as the Python dict reference is. -/
def attackStep (m : MathsOracle) (cfg : Settings) (robot_id : ℕ)
    (acc : List RobotRec × List Event) (tid : ℕ) : List RobotRec × List Event :=
  match acc.1[robot_id]?, acc.1[tid]? with
  | some attacker, some target =>
    if is_in_angle m attacker.coords attacker.heading cfg.attack_angle
        target.coords then
      let damage := attack_dmg cfg attacker target
      if damage ≠ 0 then
        (acc.1.set tid { target with damage := target.damage + damage },
         acc.2 ++ [Event.attacked tid attacker.className])
      else acc
    else acc
  | _, _ => acc

/-- `Game.attack` (game.py:69-98): iterate over the snapshot of currently
active robots (the attacker itself included) and apply `attackStep` to each.
An out-of-range attacker id is the `IndexError` of `self._robots[robot_id]`. -/
def attack (m : MathsOracle) (cfg : Settings) (robots : List RobotRec)
    (robot_id : ℕ) : Except (Err × List RobotRec) (List RobotRec × List Event) :=
  match robots[robot_id]? with
  | none => .error (.badIndex, robots)
  | some _ => .ok ((active_robots robots).foldl (attackStep m cfg robot_id) (robots, []))

/-- Dispatch of a single controller command to the engine's command API. -/
def applyCommand (m : MathsOracle) (cfg : Settings) (robots : List RobotRec) :
    Command → Except (Err × List RobotRec) (List RobotRec × List Event)
  | .set_heading i r => (set_heading robots i r).map fun rs => (rs, [])
  | .set_speed i v => (set_speed cfg robots i v).map fun rs => (rs, [])
  | .attack i => attack m cfg robots i

/-- Apply a controller's command list in order, accumulating the emitted
notifications; a raised error propagates, keeping the effects of the commands
already executed. -/
def applyCommands (m : MathsOracle) (cfg : Settings) :
    List RobotRec → List Command → List Event →
    Except (Err × List RobotRec) (List RobotRec × List Event)
  | robots, [], evs => .ok (robots, evs)
  | robots, c :: cs, evs =>
    match applyCommand m cfg robots c with
    | .error e => .error e
    | .ok (robots', evs') => applyCommands m cfg robots' cs (evs ++ evs')

/-- `Game._get_line_seg` (game.py:106-129): the candidate move segment of one
robot, from its coordinates, heading, speed and the time elapsed since its
last move.  A `None` timestamp would raise in `now - data['then']`. -/
def _get_line_seg (m : MathsOracle) (data : RobotRec) (now : ℚ) :
    Except Err ((ℚ × ℚ) × (ℚ × ℚ)) :=
  match data.then' with
  | none => .error .noneThen
  | some thenV =>
    let t_d := now - thenV
    let dist := data.speed * t_d
    let x_d := m.cos data.heading * dist
    let y_d := m.sin data.heading * dist
    .ok ((data.coords.1, data.coords.2), (data.coords.1 + x_d, data.coords.2 + y_d))

/-- Key of the `line_segs` map of `Game._move_robots`: one of the four border
names, or a robot id. -/
inductive SegId where
  | border (name : String)
  | robot (id : ℕ)
deriving DecidableEq

/-- `Game._get_intersections` (game.py:139-173): intersect every ordered pair
of distinct segments.  Python stores the results in a
`defaultdict(dict)` keyed by `a_id` then `b_id`; the model keeps the same
pairs, with the same iteration order, as a flat association list. -/
def _get_intersections (line_segs : List (SegId × ((ℚ × ℚ) × (ℚ × ℚ)))) :
    List ((SegId × SegId) × (ℚ × ℚ)) :=
  line_segs.foldl (fun acc a =>
    acc ++ line_segs.filterMap fun b =>
      if a.1 = b.1 then none
      else (seg_intersect a.2.1 a.2.2 b.2.1 b.2.2).map fun p => ((a.1, b.1), p)) []

/-- The commit loop of `Game._move_robots` (game.py:198-203): each moving
robot is placed at its segment's `to` point and its `then` timestamp updated
(only reached when no intersection was found, so the `to` points are the
unclipped endpoints). -/
def commitMoves (now : ℚ) :
    List (SegId × ((ℚ × ℚ) × (ℚ × ℚ))) → List RobotRec → List RobotRec
  | [], robots => robots
  | p :: ps, robots =>
    commitMoves now ps
      (match p.1 with
       | .robot i =>
         match robots[i]? with
         | some r => robots.set i { r with coords := p.2.2, then' := some now }
         | none => robots
       | .border _ => robots)

/-- `Game._move_robots` (game.py:175-220) for the captured list `robots` of
active robot indices.  The four borders and each listed robot's candidate
segment are intersected pairwise.  The subsequent loop
`for (a_id, b_id), coords in bumps.items():` (game.py:191) unpacks each key of
the dict-of-dicts `bumps` as a pair, but the keys are single ids (see the
doctest of `_get_intersections`), so its first iteration raises — a
`ValueError` (a border-name string of length ≠ 2) or `TypeError` (an `int`
id); consequently, when any intersection exists the move aborts before any
position is committed, and when none exists both the clipping loop
(game.py:191-197) and the bump-notification loop (game.py:205-220) do nothing
and every robot moves to its unclipped endpoint with its timestamp updated. -/
def _move_robots (m : MathsOracle) (cfg : Settings) (robots : List RobotRec)
    (robotIds : List ℕ) (now : ℚ) :
    Except (Err × List RobotRec) (List RobotRec × List Event) :=
  let x_max := cfg.battlefield_size.1
  let y_max := cfg.battlefield_size.2
  let borders : List (SegId × ((ℚ × ℚ) × (ℚ × ℚ))) :=
    [(.border "left", ((0, 0), (0, y_max))),
     (.border "top", ((0, y_max), (x_max, y_max))),
     (.border "right", ((x_max, y_max), (x_max, 0))),
     (.border "bottom", ((x_max, 0), (0, 0)))]
  match robotIds.mapM (fun i =>
      match robots[i]? with
      | none => Except.error Err.badIndex
      | some r => (_get_line_seg m r now).map fun sg => (SegId.robot i, sg)) with
  | .error e => .error (e, robots)
  | .ok robotSegs =>
    let line_segs := borders ++ robotSegs
    let bumps := _get_intersections line_segs
    match bumps with
    | _ :: _ => .error (.unpackBumps, robots)
    | [] => .ok (commitMoves now robotSegs robots, [])

/-- The delivery loop of `Game._update_radar` (game.py:135-137): each robot of
the captured list receives the precomputed radar snapshot in order and its
controller may issue commands before the next robot is notified. -/
def radarLoop (m : MathsOracle) (cfg : Settings) (pol : Policy)
    (radar : List (String × (ℚ × ℚ))) :
    List ℕ → List RobotRec → List Event →
    Except (Err × List RobotRec) (List RobotRec × List Event)
  | [], robots, evs => .ok (robots, evs)
  | i :: is, robots, evs =>
    match applyCommands m cfg robots (pol.onRadar i radar robots)
        (evs ++ [Event.radar_updated i radar]) with
    | .error e => .error e
    | .ok (robots', evs') => radarLoop m cfg pol radar is robots' evs'

/-- `Game._update_radar` (game.py:131-137): compute the radar snapshot of all
robots once (active or not), then deliver it to each robot of the captured
active list. -/
def _update_radar (m : MathsOracle) (cfg : Settings) (pol : Policy)
    (robots : List RobotRec) (robotIds : List ℕ) :
    Except (Err × List RobotRec) (List RobotRec × List Event) :=
  radarLoop m cfg pol (robots.map fun r => (r.className, r.coords)) robotIds robots []

/-- The `started` loop of `Game.run_robots` (game.py:226-231), iterated over
the robot indices: each robot receives a `started` notification with its
current coordinates, its controller may issue commands, and then its `then`
timestamp is set to the clock reading taken before the loop. -/
def startedLoop (m : MathsOracle) (cfg : Settings) (pol : Policy) (now : ℚ) :
    List ℕ → List RobotRec → List Event →
    Except (Err × List RobotRec) (List RobotRec × List Event)
  | [], robots, evs => .ok (robots, evs)
  | i :: is, robots, evs =>
    match robots[i]? with
    | none => startedLoop m cfg pol now is robots evs
    | some r =>
      match applyCommands m cfg robots (pol.onStarted i r.coords robots)
          (evs ++ [Event.started i r.coords]) with
      | .error e => .error e
      | .ok (robots', evs') =>
        match robots'[i]? with
        | none => startedLoop m cfg pol now is robots' evs'
        | some r' =>
          startedLoop m cfg pol now is (robots'.set i { r' with then' := some now }) evs'

/-- The `started` phase of `Game.run_robots` (game.py:225-231) over the whole
robot list (the `robots[i]? = none` fallbacks of `startedLoop` are unreachable
for these in-range indices). -/
def startedPhase (m : MathsOracle) (cfg : Settings) (pol : Policy) (now : ℚ)
    (robots : List RobotRec) :
    Except (Err × List RobotRec) (List RobotRec × List Event) :=
  startedLoop m cfg pol now (List.range robots.length) robots []

/-- The turn loop of `Game.run_robots` (game.py:233-241).  `robotIds` is the
list of active robots captured once before the loop; the loop guard re-reads
its (fixed) length, not the current damage values.  Each turn increments the
turn counter, broadcasts radar, and moves the captured robots; the pacing
sleep is correctness-irrelevant and not modelled.  On an abort the state and
the notifications delivered so far are reported.

The loop terminates because the guard keeps `turn` below `cfg.max_turns`
while every iteration increments it; this is made structural with a `fuel`
argument that `turnLoop` instantiates with the remaining budget
`cfg.max_turns - turn`, so the `fuel = 0` fallback is unreachable (when the
guard holds, `turn < cfg.max_turns` forces a positive budget). -/
def turnLoopFuel (m : MathsOracle) (cfg : Settings) (pol : Policy)
    (robotIds : List ℕ) (times : ℕ → ℚ) :
    ℕ → ℕ → List RobotRec → List Event →
    Except (Err × ℕ × List RobotRec × List Event) (ℕ × List RobotRec × List Event)
  | 0, turn, robots, evs => .ok (turn, robots, evs)
  | fuel' + 1, turn, robots, evs =>
    if robotIds.length > 1 ∧ turn < cfg.max_turns then
      match _update_radar m cfg pol robots robotIds with
      | .error (e, rs) => .error (e, turn + 1, rs, evs)
      | .ok (robots1, evs1) =>
        match _move_robots m cfg robots1 robotIds (times (turn + 1)) with
        | .error (e, rs) => .error (e, turn + 1, rs, evs ++ evs1)
        | .ok (robots2, evs2) =>
          turnLoopFuel m cfg pol robotIds times fuel' (turn + 1) robots2 (evs ++ evs1 ++ evs2)
    else .ok (turn, robots, evs)

/-- The turn loop entered at turn counter `turn`: see `turnLoopFuel`. -/
def turnLoop (m : MathsOracle) (cfg : Settings) (pol : Policy)
    (robotIds : List ℕ) (times : ℕ → ℚ) (turn : ℕ) (robots : List RobotRec)
    (evs : List Event) :
    Except (Err × ℕ × List RobotRec × List Event) (ℕ × List RobotRec × List Event) :=
  turnLoopFuel m cfg pol robotIds times (cfg.max_turns - turn) turn robots evs

/-- `Game.run_robots` (game.py:222-241): deliver `started` to every robot and
stamp their move timestamps with one clock reading (`times 0`), capture the
active list once, and run the turn loop from turn 0; the clock reading of the
move phase of turn `t` is `times t`. -/
def run_robots (m : MathsOracle) (cfg : Settings) (pol : Policy)
    (times : ℕ → ℚ) (robots : List RobotRec) :
    Except (Err × ℕ × List RobotRec × List Event) (ℕ × List RobotRec × List Event) :=
  match startedPhase m cfg pol (times 0) robots with
  | .error (e, rs) => .error (e, 0, rs, [])
  | .ok (robots1, evs1) =>
    let robotIds := active_robots robots1
    turnLoop m cfg pol robotIds times 0 robots1 evs1

/-- `Game.run` (game.py:243-249): drive `run_robots` to completion and format
the surviving robots as `"{name} (damage {d})"` strings; an exception raised
inside the loop propagates. -/
def run (m : MathsOracle) (cfg : Settings) (pol : Policy) (times : ℕ → ℚ)
    (robots : List RobotRec) :
    Except (Err × ℕ × List RobotRec × List Event) (List String) :=
  match run_robots m cfg pol times robots with
  | .error e => .error e
  | .ok (_, robots', _) =>
    .ok (((active_robots robots').filterMap fun i => robots'[i]?).map
      fun r => r.className ++ " (damage " ++ toString r.damage ++ ")")

/-- The outcome message printed by `main` (game.py:273-278). -/
def mainMessage (winners : List String) : String :=
  if winners.length > 1 then
    "Stalemate. The survivors are " ++ String.intercalate ", " winners
  else if winners.length = 1 then
    "The winner is " ++ winners.getD 0 ""
  else
    "All robots were destroyed"

/-- `Game.__init__` (game.py:20-37): one record per controller class, with the
two `random.randrange` draws of robot `i` supplied as `rands i` (each draw is
an integer in `[0, bound)` by the `randrange` contract), speed `0.0`, damage
`0`, heading `0.0` and no move timestamp. -/
def gameInit (classNames : List String) (rands : ℕ → ℚ × ℚ) : List RobotRec :=
  classNames.enum.map fun p =>
    { className := p.2, coords := rands p.1, speed := 0, damage := 0,
      heading := 0, then' := none }

/-- The robot list carried by a simulation outcome: the final list on normal
termination, the list at the abort point when the run raised. -/
def resultRobots :
    Except (Err × ℕ × List RobotRec × List Event) (ℕ × List RobotRec × List Event) →
    List RobotRec
  | .ok (_, robots, _) => robots
  | .error (_, _, robots, _) => robots

/-- The notifications delivered during a simulation, up to the abort point
when the run raised. -/
def resultEvents :
    Except (Err × ℕ × List RobotRec × List Event) (ℕ × List RobotRec × List Event) →
    List Event
  | .ok (_, _, evs) => evs
  | .error (_, _, _, evs) => evs

/-- Recognises a `bumped` notification. -/
def Event.isBumped : Event → Bool
  | .bumped _ _ => true
  | _ => false

/-! ### Concrete materials for closed-form runs

The runs below keep every robot's heading at `0` and place robots so that all
displacement vectors fed to `is_in_angle` point along the non-negative x-axis
(or are zero).  At exactly these arguments the real transcendental values are
rational, and `m0` returns them: `cos 0 = 1`, `sin 0 = 0`, `atan2 0 dx = 0`
for `dx ≥ 0` (including `atan2 0 0 = 0`, the Python convention), and the
wrap-around reduction of an angular difference of `0` is `0` for any positive
modulus, so the value chosen for `twoPi` is immaterial. -/
def m0 : MathsOracle :=
  { cos := fun _ => 1, sin := fun _ => 0, atan2 := fun _ _ => 0, twoPi := 44 / 7 }

/-- Oracle for the run behind the claim about multiple intersections: robot 1
there steers to heading `1` radian, so `m0` is extended with rational
approximations of `cos 1 ≈ 0.5403` and `sin 1 ≈ 0.8415` (the Python floats are
themselves rationals a few 1e-17 away; every intersection below is transverse,
with parameters far from `{0,1}`, so it is robust to this approximation
error). -/
def m4 : MathsOracle :=
  { cos := fun θ => if θ = 1 then 5403 / 10000 else 1,
    sin := fun θ => if θ = 1 then 8415 / 10000 else 0,
    atan2 := fun _ _ => 0, twoPi := 44 / 7 }

/-- The identity clock: the move phase of turn `t` happens at time `t`, so
with `then' = 0` each first move has elapsed time equal to its turn number. -/
def timesId : ℕ → ℚ := fun t => (t : ℚ)

/-- A controller that never issues a command. -/
def trivPol : Policy := { onStarted := fun _ _ _ => [], onRadar := fun _ _ _ => [] }

def cfg1 : Settings :=
  { battlefield_size := (10, 10), max_speed := 10, attack_angle := 2,
    attack_damage := 100, max_turns := 5 }

def rands1 : ℕ → ℚ × ℚ := fun i => if i = 0 then (5, 5) else (6, 5)

/-- Robot 0 kills everything point-blank on the first radar ping and then
starts moving. -/
def pol1 : Policy :=
  { onStarted := fun _ _ _ => [],
    onRadar := fun i _ _ => if i = 0 then [.attack 0, .set_speed 0 7] else [] }

def cfg2 : Settings :=
  { battlefield_size := (10, 10), max_speed := 10, attack_angle := 2,
    attack_damage := 10, max_turns := 5 }

def rands2 : ℕ → ℚ × ℚ := fun i => if i = 0 then (5, 5) else (1, 1)

/-- Robot 0 accelerates toward the right border on the first turn. -/
def pol2 : Policy :=
  { onStarted := fun _ _ _ => [],
    onRadar := fun i _ _ => if i = 0 then [.set_speed 0 6] else [] }

def cfg3 : Settings :=
  { battlefield_size := (10, 10), max_speed := 10, attack_angle := 2,
    attack_damage := 60, max_turns := 3 }

def rands3 : ℕ → ℚ × ℚ := fun i => if i = 0 then (0, 0) else (1, 0)

/-- Robot 0 attacks twice while handling the first radar ping. -/
def pol3 : Policy :=
  { onStarted := fun _ _ _ => [],
    onRadar := fun i _ _ => if i = 0 then [.attack 0, .attack 0] else [] }

def cfg4 : Settings :=
  { battlefield_size := (10, 10), max_speed := 30, attack_angle := 2,
    attack_damage := 10, max_turns := 5 }

def rands4 : ℕ → ℚ × ℚ := fun i => if i = 0 then (5, 5) else (6, 2)

/-- Robot 0 moves along the x-axis; robot 1 steers to heading 1 rad and cuts
across robot 0's path before robot 0 would reach the right border, so robot
0's candidate segment has two intersections. -/
def pol4 : Policy :=
  { onStarted := fun _ _ _ => [],
    onRadar := fun i _ _ =>
      if i = 0 then [.set_speed 0 6]
      else if i = 1 then [.set_heading 1 1, .set_speed 1 5] else [] }

def cfg5 : Settings :=
  { battlefield_size := (10, 10), max_speed := 40, attack_angle := 2,
    attack_damage := 10, max_turns := 5 }

def rands5 : ℕ → ℚ × ℚ := fun i => if i = 0 then (5, 5) else (2, 8)

/-- Robot 0 speeds toward the right border far beyond it in one tick. -/
def pol5 : Policy :=
  { onStarted := fun _ _ _ => [],
    onRadar := fun i _ _ => if i = 0 then [.set_speed 0 20] else [] }

def cfg6 : Settings :=
  { battlefield_size := (10, 10), max_speed := 10, attack_angle := 2,
    attack_damage := 10, max_turns := 5 }

def rands6 : ℕ → ℚ × ℚ := fun _ => (1, 2)

/-- A controller that requests a negative speed while handling `started`. -/
def pol6 : Policy :=
  { onStarted := fun i _ _ => if i = 0 then [.set_speed 0 (-1)] else [],
    onRadar := fun _ _ _ => [] }

/-- Attacker of the plain attack call evaluated below: robot "A" at the
origin, heading 0. -/
def wA7 : RobotRec := ⟨"A", (0, 0), 0, 0, 0, none⟩

/-- Its target: robot "B" one unit along the positive x-axis (bearing 0). -/
def wB7 : RobotRec := ⟨"B", (1, 0), 0, 0, 0, none⟩

def wrobots7 : List RobotRec := [wA7, wB7]

/-- The robot list after `attack m0 cfg2 wrobots7 0`: both in-cone robots
gain the full peak 10 (distances 0 and 1). -/
def wrobots7atk : List RobotRec :=
  [⟨"A", (0, 0), 0, 10, 0, none⟩, ⟨"B", (1, 0), 0, 10, 0, none⟩]

def wevs7 : List Event := [.attacked 0 "A", .attacked 1 "A"]

def cfg8 : Settings :=
  { battlefield_size := (10, 10), max_speed := 10, attack_angle := 2,
    attack_damage := 9, max_turns := 5 }

/-- Attacker of the point-blank attack call evaluated below. -/
def wC8 : RobotRec := ⟨"C", (2, 3), 0, 0, 0, none⟩

/-- Its target at exactly the same coordinates. -/
def wD8 : RobotRec := ⟨"D", (2, 3), 0, 0, 0, none⟩

def wrobots8 : List RobotRec := [wC8, wD8]

/-- The robot list after `attack m0 cfg8 wrobots8 0`: both coincident robots
gain exactly the peak 9. -/
def wrobots8atk : List RobotRec :=
  [⟨"C", (2, 3), 0, 9, 0, none⟩, ⟨"D", (2, 3), 0, 9, 0, none⟩]

def wevs8 : List Event := [.attacked 0 "C", .attacked 1 "C"]

/-! ### Predicates used by the verification -/

/-- Two robot records that agree on every field except possibly `damage` —
the relation between a robot before and after an attack call. -/
def SameButDamage (x y : RobotRec) : Prop :=
  y.className = x.className ∧ y.coords = x.coords ∧ y.speed = x.speed ∧
  y.heading = x.heading ∧ y.then' = x.then'

/-- The condition under which one iteration of `Game.attack`'s target loop
mutates its target: the target lies in the attacker's cone and the computed
damage is nonzero (`if damage:`). -/
def attack_hits (m : MathsOracle) (cfg : Settings) (a t : RobotRec) : Prop :=
  is_in_angle m a.coords a.heading cfg.attack_angle t.coords = true ∧
  attack_dmg cfg a t ≠ 0

instance (m : MathsOracle) (cfg : Settings) (a t : RobotRec) :
    Decidable (attack_hits m cfg a t) := by
  unfold attack_hits; infer_instance

/-- Boolean form of `attack_hits` at an index of the robot list. -/
def hitsAt (m : MathsOracle) (cfg : Settings) (a : RobotRec)
    (robots : List RobotRec) (j : ℕ) : Bool :=
  match robots[j]? with
  | some x => decide (attack_hits m cfg a x)
  | none => false

/-- All robots of a list satisfy `Q`. -/
def AllR (Q : RobotRec → Prop) (robots : List RobotRec) : Prop :=
  ∀ r ∈ robots, Q r

/-- All robots carried by a phase result satisfy `Q` (on the abort state when
the phase raised). -/
def ExceptAll (Q : RobotRec → Prop) :
    Except (Err × List RobotRec) (List RobotRec × List Event) → Prop
  | .ok (rs, _) => AllR Q rs
  | .error (_, rs) => AllR Q rs

/-- All robots carried by a run outcome satisfy `Q` (on the abort state when
the run raised). -/
def ExceptAllRun (Q : RobotRec → Prop) :
    Except (Err × ℕ × List RobotRec × List Event) (ℕ × List RobotRec × List Event) → Prop
  | .ok (_, rs, _) => AllR Q rs
  | .error (_, _, rs, _) => AllR Q rs

/-! ### Helper lemmas -/

/-- Membership in the active list: index of a stored robot with damage
below 100. -/
theorem mem_active_robots {robots : List RobotRec} {j : ℕ} :
    j ∈ active_robots robots ↔ ∃ r, robots[j]? = some r ∧ r.damage < 100 := by
  unfold active_robots
  simp only [List.mem_map, List.mem_filter, decide_eq_true_eq]
  constructor
  · rintro ⟨⟨i, r⟩, ⟨hmem, hdam⟩, rfl⟩
    exact ⟨r, by simpa using List.mk_mem_enum_iff_getElem?.mp hmem, hdam⟩
  · rintro ⟨r, hget, hdam⟩
    exact ⟨(j, r), ⟨List.mk_mem_enum_iff_getElem?.mpr (by simpa using hget), hdam⟩, rfl⟩

/-- The active list holds valid indices. -/
theorem active_robots_lt {robots : List RobotRec} {j : ℕ}
    (h : j ∈ active_robots robots) : j < robots.length := by
  obtain ⟨r, hget, -⟩ := mem_active_robots.mp h
  exact (List.getElem?_eq_some.mp hget).1

/-- The active list has no duplicate indices. -/
theorem active_robots_nodup (robots : List RobotRec) :
    (active_robots robots).Nodup := by
  unfold active_robots
  have hsub : ((robots.enum.filter fun p => decide (p.2.damage < 100)).map
      fun p => p.1).Sublist (robots.enum.map fun p => p.1) :=
    (List.filter_sublist _).map _
  have : (robots.enum.map fun p => p.1) = List.range robots.length := by
    simp [Function.comp]
  exact hsub.nodup (this ▸ List.nodup_range _)

/-- `attack_dmg` only reads the two coordinate fields. -/
theorem attack_dmg_congr {cfg : Settings} {a a' t t' : RobotRec}
    (ha : a'.coords = a.coords) (ht : t'.coords = t.coords) :
    attack_dmg cfg a' t' = attack_dmg cfg a t := by
  unfold attack_dmg
  rw [ha, ht]

/-- With a non-negative configured peak, the falloff value is non-negative. -/
theorem get_inverse_square_nonneg {a b : ℚ × ℚ} {peak : ℚ} (hpeak : 0 ≤ peak) :
    0 ≤ get_inverse_square a b peak := by
  unfold get_inverse_square
  have hd : 0 ≤ dist2 a b := add_nonneg (sq_nonneg _) (sq_nonneg _)
  split
  · exact hpeak
  · exact le_min hpeak (div_nonneg hpeak hd)

/-- With a non-negative configured peak, every computed damage is
non-negative. -/
theorem attack_dmg_nonneg {cfg : Settings} {a t : RobotRec}
    (hpeak : 0 ≤ cfg.attack_damage) : 0 ≤ attack_dmg cfg a t := by
  unfold attack_dmg
  split
  · exact hpeak
  · rw [int_trunc, if_pos (le_min hpeak (get_inverse_square_nonneg hpeak))]
    exact_mod_cast Int.floor_nonneg.mpr (le_min hpeak (get_inverse_square_nonneg hpeak))

/-- With a non-negative configured peak, every computed damage is at most the
peak. -/
theorem attack_dmg_le {cfg : Settings} {a t : RobotRec}
    (hpeak : 0 ≤ cfg.attack_damage) : attack_dmg cfg a t ≤ cfg.attack_damage := by
  unfold attack_dmg
  split
  · exact le_refl _
  · rw [int_trunc, if_pos (le_min hpeak (get_inverse_square_nonneg hpeak))]
    calc ((⌊min cfg.attack_damage (get_inverse_square a.coords t.coords cfg.attack_damage)⌋ : ℚ))
        ≤ min cfg.attack_damage (get_inverse_square a.coords t.coords cfg.attack_damage) :=
          Int.floor_le _
      _ ≤ cfg.attack_damage := min_le_left _ _

/-- Behaviour of the target loop of `Game.attack` over any duplicate-free
list `L` of valid indices, relative to the robot list `robots` seen at call
time: starting from a state `sc` that agrees with `robots` except on damage
and still agrees on damage at the unprocessed indices `L`, the loop preserves
every field except damage, adds `attack_dmg` exactly once to each index of
`L` that satisfies `attack_hits`, and appends one `attacked` notification per
hit in order. -/
theorem attackFold_spec (m : MathsOracle) (cfg : Settings) (rid : ℕ)
    (robots : List RobotRec) (a : RobotRec) (ha : robots[rid]? = some a) :
    ∀ (L : List ℕ) (sc : List RobotRec) (ec : List Event),
      L.Nodup → (∀ j ∈ L, j < robots.length) →
      sc.length = robots.length →
      (∀ (j : ℕ) (x : RobotRec), robots[j]? = some x → ∃ y, sc[j]? = some y ∧ SameButDamage x y) →
      (∀ j ∈ L, ∀ (x y : RobotRec), robots[j]? = some x → sc[j]? = some y → y.damage = x.damage) →
      (L.foldl (attackStep m cfg rid) (sc, ec)).1.length = robots.length ∧
      (∀ (j : ℕ) (x : RobotRec), robots[j]? = some x →
        ∃ y, (L.foldl (attackStep m cfg rid) (sc, ec)).1[j]? = some y ∧
          SameButDamage x y ∧
          ∀ z, sc[j]? = some z →
            y.damage = z.damage +
              (if j ∈ L ∧ attack_hits m cfg a x then attack_dmg cfg a x else 0)) ∧
      (L.foldl (attackStep m cfg rid) (sc, ec)).2 =
        ec ++ (L.filter (hitsAt m cfg a robots)).map
          (fun j => Event.attacked j a.className) := by
  intro L
  induction L with
  | nil =>
    intro sc ec _ _ hlen hpt _
    refine ⟨hlen, ?_, by simp⟩
    intro j x hx
    obtain ⟨y, hy, hsame⟩ := hpt j x hx
    refine ⟨y, by simpa using hy, hsame, ?_⟩
    intro z hz
    rw [hy] at hz
    cases hz
    simp
  | cons t L' ih =>
    intro sc ec hnd hlt hlen hpt hdam
    have hndt : t ∉ L' := (List.nodup_cons.mp hnd).1
    have hnd' : L'.Nodup := (List.nodup_cons.mp hnd).2
    have htlt : t < robots.length := hlt t (by simp)
    obtain ⟨a', ha', hsa⟩ := hpt rid a ha
    have hx_t : robots[t]? = some robots[t] := List.getElem?_eq_getElem htlt
    obtain ⟨y_t, hy_t, hsy⟩ := hpt t robots[t] hx_t
    have hy_dam : y_t.damage = robots[t].damage :=
      hdam t (by simp) robots[t] y_t hx_t hy_t
    have hcond : (is_in_angle m a'.coords a'.heading cfg.attack_angle y_t.coords =
        is_in_angle m a.coords a.heading cfg.attack_angle robots[t].coords) := by
      rw [hsa.2.1, hsa.2.2.2.1, hsy.2.1]
    have hdm : attack_dmg cfg a' y_t = attack_dmg cfg a robots[t] :=
      attack_dmg_congr hsa.2.1 hsy.2.1
    by_cases hhit : attack_hits m cfg a robots[t]
    · -- the head index is hit: one damage update and one notification
      have hstep : attackStep m cfg rid (sc, ec) t =
          (sc.set t { y_t with damage := y_t.damage + attack_dmg cfg a robots[t] },
           ec ++ [Event.attacked t a.className]) := by
        unfold attackStep
        simp only [ha', hy_t]
        rw [hcond, hdm, hsa.1, if_pos hhit.1, if_pos hhit.2]
      have hsetlen :
          (sc.set t { y_t with damage := y_t.damage + attack_dmg cfg a robots[t] }).length = robots.length := by
        simp [hlen]
      have hpt' : ∀ (j : ℕ) (x : RobotRec), robots[j]? = some x →
          ∃ y, (sc.set t { y_t with damage := y_t.damage + attack_dmg cfg a robots[t] })[j]? = some y ∧ SameButDamage x y := by
        intro j x hx
        by_cases hjt : j = t
        · subst hjt
          rw [hx_t] at hx
          cases hx
          refine ⟨_, List.getElem?_set_eq_of_lt _ (by rw [hlen]; exact htlt), ?_⟩
          exact ⟨hsy.1, hsy.2.1, hsy.2.2.1, hsy.2.2.2.1, hsy.2.2.2.2⟩
        · obtain ⟨y, hy, hs⟩ := hpt j x hx
          exact ⟨y, by rw [List.getElem?_set_ne (fun h => hjt h.symm)]; exact hy, hs⟩
      have hdam' : ∀ j ∈ L', ∀ (x y : RobotRec), robots[j]? = some x →
          (sc.set t { y_t with damage := y_t.damage + attack_dmg cfg a robots[t] })[j]? = some y → y.damage = x.damage := by
        intro j hj x y hx hy
        have hjt : j ≠ t := fun h => hndt (h ▸ hj)
        rw [List.getElem?_set_ne (fun h => hjt h.symm)] at hy
        exact hdam j (by simp [hj]) x y hx hy
      obtain ⟨ihlen, ihpt, ihev⟩ := ih _ _ hnd'
        (fun j hj => hlt j (by simp [hj])) hsetlen hpt' hdam'
      rw [List.foldl_cons, hstep]
      refine ⟨ihlen, ?_, ?_⟩
      · intro j x hx
        obtain ⟨y, hy, hs, hd⟩ := ihpt j x hx
        refine ⟨y, hy, hs, ?_⟩
        intro z hz
        by_cases hjt : j = t
        · subst hjt
          rw [hx_t] at hx
          cases hx
          rw [hy_t] at hz
          cases hz
          have := hd _ (List.getElem?_set_eq_of_lt _ (by rw [hlen]; exact htlt))
          rw [this]
          simp [hndt, hhit]
        · have hz' :
              (sc.set t { y_t with damage := y_t.damage + attack_dmg cfg a robots[t] })[j]? = some z := by
            rw [List.getElem?_set_ne (fun h => hjt h.symm)]; exact hz
          rw [hd z hz']
          congr 1
          by_cases hjL : j ∈ L' <;> simp [hjt, hjL]
      · rw [ihev]
        have hfil : hitsAt m cfg a robots t = true := by
          unfold hitsAt
          rw [hx_t]
          exact decide_eq_true hhit
        simp [hfil]
    · -- the head index is not hit: the accumulator is unchanged
      have hstep : attackStep m cfg rid (sc, ec) t = (sc, ec) := by
        unfold attackStep
        simp only [ha', hy_t]
        rw [hcond, hdm]
        by_cases hang : is_in_angle m a.coords a.heading cfg.attack_angle
            robots[t].coords = true
        · rw [if_pos hang]
          have : ¬ attack_dmg cfg a robots[t] ≠ 0 := fun hne => hhit ⟨hang, hne⟩
          rw [if_neg this]
        · rw [if_neg hang]
      obtain ⟨ihlen, ihpt, ihev⟩ := ih sc ec hnd'
        (fun j hj => hlt j (by simp [hj])) hlen hpt
        (fun j hj x y hx hy => hdam j (by simp [hj]) x y hx hy)
      rw [List.foldl_cons, hstep]
      refine ⟨ihlen, ?_, ?_⟩
      · intro j x hx
        obtain ⟨y, hy, hs, hd⟩ := ihpt j x hx
        refine ⟨y, hy, hs, ?_⟩
        intro z hz
        rw [hd z hz]
        congr 1
        by_cases hjt : j = t
        · subst hjt
          rw [hx_t] at hx
          cases hx
          simp [hndt, hhit]
        · by_cases hjL : j ∈ L' <;> simp [hjt, hjL]
      · rw [ihev]
        have hfil : hitsAt m cfg a robots t = false := by
          unfold hitsAt
          rw [hx_t]
          exact decide_eq_false hhit
        simp [hfil]

/-- `Game.attack` with a valid attacker id never raises, and its complete
effect is: every robot keeps all fields except damage; each robot active at
call time whose record satisfies `attack_hits` gains `attack_dmg` and is
listed, in order, in the delivered `attacked` notifications. -/
theorem attack_spec (m : MathsOracle) (cfg : Settings) (robots : List RobotRec)
    (rid : ℕ) (a : RobotRec) (ha : robots[rid]? = some a) :
    ∃ robots' evs, attack m cfg robots rid = .ok (robots', evs) ∧
      robots'.length = robots.length ∧
      (∀ (j : ℕ) (x : RobotRec), robots[j]? = some x →
        ∃ y, robots'[j]? = some y ∧ SameButDamage x y ∧
          y.damage = x.damage +
            (if j ∈ active_robots robots ∧ attack_hits m cfg a x then
              attack_dmg cfg a x else 0)) ∧
      evs = ((active_robots robots).filter (hitsAt m cfg a robots)).map
        (fun j => Event.attacked j a.className) := by
  obtain ⟨hlen, hpt, hev⟩ := attackFold_spec m cfg rid robots a ha
    (active_robots robots) robots []
    (active_robots_nodup robots) (fun _ hj => active_robots_lt hj) rfl
    (fun j x hx => ⟨x, hx, rfl, rfl, rfl, rfl, rfl⟩)
    (fun j _ x y hx hy => by rw [hx] at hy; cases hy; rfl)
  refine ⟨_, _, ?_, hlen, ?_, by simpa using hev⟩
  · unfold attack
    rw [ha]
  · intro j x hx
    obtain ⟨y, hy, hs, hd⟩ := hpt j x hx
    exact ⟨y, hy, hs, hd x hx⟩

/-- `attack_hits` restated with the claim's strict positivity, available when
the configured peak is non-negative. -/
theorem attack_hits_iff_pos {m : MathsOracle} {cfg : Settings} {a x : RobotRec}
    (hpeak : 0 ≤ cfg.attack_damage) :
    attack_hits m cfg a x ↔
      (is_in_angle m a.coords a.heading cfg.attack_angle x.coords = true ∧
        0 < attack_dmg cfg a x) := by
  unfold attack_hits
  constructor
  · rintro ⟨h1, h2⟩
    exact ⟨h1, lt_of_le_of_ne (attack_dmg_nonneg hpeak) (Ne.symm h2)⟩
  · rintro ⟨h1, h2⟩
    exact ⟨h1, ne_of_gt h2⟩

/-- Replacing one valid entry preserves a pointwise property. -/
theorem allR_set {Q : RobotRec → Prop} {l : List RobotRec} {i : ℕ}
    {r : RobotRec} (hall : AllR Q l) (hr : Q r) : AllR Q (l.set i r) := by
  intro x hx
  rcases List.mem_or_eq_of_mem_set hx with hmem | rfl
  · exact hall x hmem
  · exact hr

/-- Preservation of a pointwise property by the whole effect of one attack
call, given that the property survives each per-target damage update. -/
theorem attack_all_of (m : MathsOracle) (cfg : Settings) (Q : RobotRec → Prop)
    (hQ : ∀ (robots : List RobotRec) (a x y : RobotRec) (j : ℕ),
        robots[j]? = some x → SameButDamage x y →
        y.damage = x.damage +
          (if j ∈ active_robots robots ∧ attack_hits m cfg a x then
            attack_dmg cfg a x else 0) →
        AllR Q robots → Q y) :
    ∀ (robots : List RobotRec) (rid : ℕ), AllR Q robots →
      ExceptAll Q (attack m cfg robots rid) := by
  intro robots rid hall
  cases ha : robots[rid]? with
  | none =>
    unfold attack
    rw [ha]
    exact hall
  | some a =>
    obtain ⟨robots', evs, hrun, hlen, hpt, -⟩ := attack_spec m cfg robots rid a ha
    rw [hrun]
    intro r' hr'
    obtain ⟨j, hj⟩ := List.getElem?_of_mem hr'
    have hjlen : j < robots.length := by
      have h := (List.getElem?_eq_some.mp hj).1
      omega
    obtain ⟨y, hy, hs, hd⟩ := hpt j robots[j] (List.getElem?_eq_getElem hjlen)
    rw [hj] at hy
    cases hy
    exact hQ robots a robots[j] r' j (List.getElem?_eq_getElem hjlen) hs hd hall

/-- Preservation of a pointwise property by one dispatched command. -/
theorem applyCommand_all (m : MathsOracle) (cfg : Settings) (Q : RobotRec → Prop)
    (hHead : ∀ (r : RobotRec) (v : ℚ), Q r → Q { r with heading := v })
    (hSpeed : ∀ (r : RobotRec) (v : ℚ), Q r → Q { r with speed := min v cfg.max_speed })
    (hAtk : ∀ (robots : List RobotRec) (rid : ℕ), AllR Q robots →
      ExceptAll Q (attack m cfg robots rid)) :
    ∀ (robots : List RobotRec) (c : Command), AllR Q robots →
      ExceptAll Q (applyCommand m cfg robots c) := by
  intro robots c hall
  cases c with
  | set_heading i v =>
    cases hr : robots[i]? with
    | none =>
      simp only [applyCommand, set_heading, hr, Except.map]
      exact hall
    | some r =>
      simp only [applyCommand, set_heading, hr, Except.map]
      exact allR_set hall (hHead r v (hall r (List.getElem?_mem hr)))
  | set_speed i v =>
    cases hr : robots[i]? with
    | none =>
      simp only [applyCommand, set_speed, hr, Except.map]
      exact hall
    | some r =>
      simp only [applyCommand, set_speed, hr, Except.map]
      exact allR_set hall (hSpeed r v (hall r (List.getElem?_mem hr)))
  | attack i => exact hAtk robots i hall

/-- Preservation of a pointwise property by a command list. -/
theorem applyCommands_all (m : MathsOracle) (cfg : Settings) (Q : RobotRec → Prop)
    (hCmd : ∀ (robots : List RobotRec) (c : Command), AllR Q robots →
      ExceptAll Q (applyCommand m cfg robots c)) :
    ∀ (cs : List Command) (robots : List RobotRec) (evs : List Event),
      AllR Q robots → ExceptAll Q (applyCommands m cfg robots cs evs) := by
  intro cs
  induction cs with
  | nil => intro robots evs hall; exact hall
  | cons c cs ih =>
    intro robots evs hall
    have hpres := hCmd robots c hall
    cases hc : applyCommand m cfg robots c with
    | error e =>
      rw [hc] at hpres
      simp only [applyCommands, hc]
      exact hpres
    | ok res =>
      rw [hc] at hpres
      simp only [applyCommands, hc]
      exact ih res.1 (evs ++ res.2) hpres

/-- Preservation of a pointwise property by the radar delivery loop. -/
theorem radarLoop_all (m : MathsOracle) (cfg : Settings) (pol : Policy)
    (radar : List (String × (ℚ × ℚ))) (Q : RobotRec → Prop)
    (hCmd : ∀ (robots : List RobotRec) (c : Command), AllR Q robots →
      ExceptAll Q (applyCommand m cfg robots c)) :
    ∀ (ids : List ℕ) (robots : List RobotRec) (evs : List Event),
      AllR Q robots → ExceptAll Q (radarLoop m cfg pol radar ids robots evs) := by
  intro ids
  induction ids with
  | nil => intro robots evs hall; exact hall
  | cons i is ih =>
    intro robots evs hall
    have hpres := applyCommands_all m cfg Q hCmd (pol.onRadar i radar robots) robots
      (evs ++ [Event.radar_updated i radar]) hall
    cases hc : applyCommands m cfg robots (pol.onRadar i radar robots)
        (evs ++ [Event.radar_updated i radar]) with
    | error e =>
      rw [hc] at hpres
      simp only [radarLoop, hc]
      exact hpres
    | ok res =>
      rw [hc] at hpres
      simp only [radarLoop, hc]
      exact ih res.1 res.2 hpres

/-- Preservation of a pointwise property by the `started` loop. -/
theorem startedLoop_all (m : MathsOracle) (cfg : Settings) (pol : Policy)
    (now : ℚ) (Q : RobotRec → Prop)
    (hThen : ∀ (r : RobotRec) (tv : Option ℚ), Q r → Q { r with then' := tv })
    (hCmd : ∀ (robots : List RobotRec) (c : Command), AllR Q robots →
      ExceptAll Q (applyCommand m cfg robots c)) :
    ∀ (ids : List ℕ) (robots : List RobotRec) (evs : List Event),
      AllR Q robots → ExceptAll Q (startedLoop m cfg pol now ids robots evs) := by
  intro ids
  induction ids with
  | nil => intro robots evs hall; exact hall
  | cons i is ih =>
    intro robots evs hall
    cases hr : robots[i]? with
    | none =>
      simp only [startedLoop, hr]
      exact ih robots evs hall
    | some r =>
      have hpres := applyCommands_all m cfg Q hCmd (pol.onStarted i r.coords robots)
        robots (evs ++ [Event.started i r.coords]) hall
      cases hc : applyCommands m cfg robots (pol.onStarted i r.coords robots)
          (evs ++ [Event.started i r.coords]) with
      | error e =>
        rw [hc] at hpres
        simp only [startedLoop, hr, hc]
        exact hpres
      | ok res =>
        rw [hc] at hpres
        cases hr' : res.1[i]? with
        | none =>
          simp only [startedLoop, hr, hc, hr']
          exact ih res.1 res.2 hpres
        | some r' =>
          simp only [startedLoop, hr, hc, hr']
          exact ih _ res.2
            (allR_set hpres (hThen r' (some now) (hpres r' (List.getElem?_mem hr'))))

/-- Preservation of a pointwise property by the movement commit loop. -/
theorem commitMoves_all (now : ℚ) (Q : RobotRec → Prop)
    (hMove : ∀ (r : RobotRec) (c : ℚ × ℚ) (tv : Option ℚ),
      Q r → Q { r with coords := c, then' := tv }) :
    ∀ (segs : List (SegId × ((ℚ × ℚ) × (ℚ × ℚ)))) (robots : List RobotRec),
      AllR Q robots → AllR Q (commitMoves now segs robots) := by
  intro segs
  induction segs with
  | nil => intro robots hall; exact hall
  | cons p ps ih =>
    intro robots hall
    cases hp : p.1 with
    | robot i =>
      cases hr : robots[i]? with
      | none =>
        simp only [commitMoves, hp, hr]
        exact ih robots hall
      | some r =>
        simp only [commitMoves, hp, hr]
        exact ih _
          (allR_set hall (hMove r p.2.2 (some now) (hall r (List.getElem?_mem hr))))
    | border b =>
      simp only [commitMoves, hp]
      exact ih robots hall

/-- Preservation of a pointwise property by the movement phase. -/
theorem _move_robots_all (m : MathsOracle) (cfg : Settings) (Q : RobotRec → Prop)
    (hMove : ∀ (r : RobotRec) (c : ℚ × ℚ) (tv : Option ℚ),
      Q r → Q { r with coords := c, then' := tv }) :
    ∀ (robots : List RobotRec) (robotIds : List ℕ) (now : ℚ),
      AllR Q robots → ExceptAll Q (_move_robots m cfg robots robotIds now) := by
  intro robots robotIds now hall
  cases hm : robotIds.mapM (fun i =>
      match robots[i]? with
      | none => Except.error Err.badIndex
      | some r => (_get_line_seg m r now).map fun sg => (SegId.robot i, sg)) with
  | error e =>
    simp only [_move_robots, hm]
    exact hall
  | ok robotSegs =>
    simp only [_move_robots, hm]
    split
    · exact hall
    · exact commitMoves_all now Q hMove robotSegs robots hall

/-- Preservation of a pointwise property by the turn loop. -/
theorem turnLoopFuel_all (m : MathsOracle) (cfg : Settings) (pol : Policy)
    (robotIds : List ℕ) (times : ℕ → ℚ) (Q : RobotRec → Prop)
    (hMove : ∀ (r : RobotRec) (c : ℚ × ℚ) (tv : Option ℚ),
      Q r → Q { r with coords := c, then' := tv })
    (hCmd : ∀ (robots : List RobotRec) (c : Command), AllR Q robots →
      ExceptAll Q (applyCommand m cfg robots c)) :
    ∀ (fuel turn : ℕ) (robots : List RobotRec) (evs : List Event),
      AllR Q robots →
      ExceptAllRun Q (turnLoopFuel m cfg pol robotIds times fuel turn robots evs) := by
  intro fuel
  induction fuel with
  | zero =>
    intro turn robots evs hall
    unfold turnLoopFuel
    exact hall
  | succ fuel ih =>
    intro turn robots evs hall
    unfold turnLoopFuel
    split
    · have hradar := radarLoop_all m cfg pol
        (robots.map fun r => (r.className, r.coords)) Q hCmd robotIds robots [] hall
      cases hu : _update_radar m cfg pol robots robotIds with
      | error e =>
        obtain ⟨e1, e2⟩ := e
        unfold _update_radar at hu
        rw [hu] at hradar
        exact hradar
      | ok res =>
        obtain ⟨robots1, evs1⟩ := res
        dsimp only
        unfold _update_radar at hu
        rw [hu] at hradar
        have hmove := _move_robots_all m cfg Q hMove robots1 robotIds (times (turn + 1)) hradar
        cases hmv : _move_robots m cfg robots1 robotIds (times (turn + 1)) with
        | error e =>
          obtain ⟨e1, e2⟩ := e
          rw [hmv] at hmove
          exact hmove
        | ok res2 =>
          obtain ⟨robots2, evs2⟩ := res2
          rw [hmv] at hmove
          exact ih (turn + 1) robots2 (evs ++ evs1 ++ evs2) hmove
    · exact hall

/-- Preservation of a pointwise property by a whole simulation run. -/
theorem run_robots_all (m : MathsOracle) (cfg : Settings) (pol : Policy)
    (times : ℕ → ℚ) (Q : RobotRec → Prop)
    (hThen : ∀ (r : RobotRec) (tv : Option ℚ), Q r → Q { r with then' := tv })
    (hMove : ∀ (r : RobotRec) (c : ℚ × ℚ) (tv : Option ℚ),
      Q r → Q { r with coords := c, then' := tv })
    (hCmd : ∀ (robots : List RobotRec) (c : Command), AllR Q robots →
      ExceptAll Q (applyCommand m cfg robots c)) :
    ∀ (robots : List RobotRec), AllR Q robots →
      ExceptAllRun Q (run_robots m cfg pol times robots) := by
  intro robots hall
  have hstart := startedLoop_all m cfg pol (times 0) Q hThen hCmd
    (List.range robots.length) robots [] hall
  cases hs : startedPhase m cfg pol (times 0) robots with
  | error e =>
    obtain ⟨e1, e2⟩ := e
    unfold startedPhase at hs
    rw [hs] at hstart
    simp only [run_robots, startedPhase, hs]
    exact hstart
  | ok res =>
    obtain ⟨robots1, evs1⟩ := res
    unfold startedPhase at hs
    rw [hs] at hstart
    simp only [run_robots, startedPhase, hs]
    exact turnLoopFuel_all m cfg pol (active_robots robots1) times Q hMove hCmd
      _ 0 robots1 evs1 hstart

/-- A property of all robots in a run outcome, read through `resultRobots`. -/
theorem exceptAllRun_resultRobots {Q : RobotRec → Prop}
    {res : Except (Err × ℕ × List RobotRec × List Event)
      (ℕ × List RobotRec × List Event)}
    (h : ExceptAllRun Q res) : ∀ r ∈ resultRobots res, Q r := by
  cases res with
  | error e =>
    obtain ⟨e1, e2, e3, e4⟩ := e
    exact h
  | ok res =>
    obtain ⟨t, rs, evs⟩ := res
    exact h

/-- Every robot created by `Game.__init__` satisfies any property holding of
records with speed 0 and damage 0. -/
theorem gameInit_allR {Q : RobotRec → Prop} (classNames : List String)
    (rands : ℕ → ℚ × ℚ)
    (h : ∀ (name : String) (c : ℚ × ℚ),
      Q { className := name, coords := c, speed := 0, damage := 0,
          heading := 0, then' := none }) :
    AllR Q (gameInit classNames rands) := by
  intro r hr
  unfold gameInit at hr
  simp only [List.mem_map] at hr
  obtain ⟨p, -, rfl⟩ := hr
  exact h p.2 (rands p.1)

/-- The turn loop returns immediately when its guard fails, whatever the
remaining budget. -/
theorem turnLoopFuel_guard_false (m : MathsOracle) (cfg : Settings)
    (pol : Policy) (robotIds : List ℕ) (times : ℕ → ℚ) (turn : ℕ)
    (robots : List RobotRec) (evs : List Event)
    (h : ¬(robotIds.length > 1 ∧ turn < cfg.max_turns)) :
    ∀ fuel, turnLoopFuel m cfg pol robotIds times fuel turn robots evs =
      .ok (turn, robots, evs) := by
  intro fuel
  cases fuel with
  | zero => unfold turnLoopFuel; rfl
  | succ fuel => unfold turnLoopFuel; rw [if_neg h]

/-! ### Claim theorems -/

/-- Claim C7: in every attack call with a non-negative configured peak, each
robot active at call time gains the truncated falloff damage and receives an
`attacked` notification naming the attacker exactly when it is inside the
attacker's cone and that damage is > 0; a truncation to zero leaves its
damage unchanged and delivers no notification. -/
theorem attack_applies_damage_iff_positive (m : MathsOracle) (cfg : Settings)
    (robots robots' : List RobotRec) (evs : List Event) (rid tid : ℕ)
    (a x : RobotRec)
    (hpeak : 0 ≤ cfg.attack_damage)
    (ha : robots[rid]? = some a)
    (hx : robots[tid]? = some x)
    (hactive : tid ∈ active_robots robots)
    (hrun : attack m cfg robots rid = .ok (robots', evs)) :
    ∃ y, robots'[tid]? = some y ∧
      y.damage = x.damage +
        (if is_in_angle m a.coords a.heading cfg.attack_angle x.coords = true ∧
            0 < attack_dmg cfg a x then attack_dmg cfg a x else 0) ∧
      (Event.attacked tid a.className ∈ evs ↔
        (is_in_angle m a.coords a.heading cfg.attack_angle x.coords = true ∧
          0 < attack_dmg cfg a x)) := by
  obtain ⟨robots'', evs'', hrun', hlen, hpt, hev⟩ := attack_spec m cfg robots rid a ha
  rw [hrun] at hrun'
  injection hrun' with h
  injection h with h1 h2
  subst h1
  subst h2
  obtain ⟨y, hy, _, hd⟩ := hpt tid x hx
  refine ⟨y, hy, ?_, ?_⟩
  · rw [hd]
    congr 1
    simp only [hactive, true_and]
    exact if_congr (attack_hits_iff_pos hpeak) rfl rfl
  · rw [hev]
    simp only [List.mem_map, List.mem_filter]
    constructor
    · rintro ⟨j, ⟨hjact, hjhit⟩, hje⟩
      have hjt : j = tid := by injection hje
      subst hjt
      unfold hitsAt at hjhit
      rw [hx] at hjhit
      exact (attack_hits_iff_pos hpeak).mp (of_decide_eq_true hjhit)
    · intro hc
      refine ⟨tid, ⟨hactive, ?_⟩, rfl⟩
      unfold hitsAt
      rw [hx]
      exact decide_eq_true ((attack_hits_iff_pos hpeak).mpr hc)

/-- Claim C8: in every attack call with a non-negative configured peak, an
in-cone active robot at exactly the attacker's position gains exactly the
configured peak, and no in-cone active robot ever gains more than the peak. -/
theorem attack_point_blank_peak_and_never_exceeds (m : MathsOracle)
    (cfg : Settings) (robots robots' : List RobotRec) (evs : List Event)
    (rid tid : ℕ) (a x : RobotRec)
    (hpeak : 0 ≤ cfg.attack_damage)
    (ha : robots[rid]? = some a)
    (hx : robots[tid]? = some x)
    (hactive : tid ∈ active_robots robots)
    (hcone : is_in_angle m a.coords a.heading cfg.attack_angle x.coords = true)
    (hrun : attack m cfg robots rid = .ok (robots', evs)) :
    ∃ y, robots'[tid]? = some y ∧
      (x.coords = a.coords → y.damage = x.damage + cfg.attack_damage) ∧
      y.damage - x.damage ≤ cfg.attack_damage := by
  obtain ⟨robots'', evs'', hrun', hlen, hpt, hev⟩ := attack_spec m cfg robots rid a ha
  rw [hrun] at hrun'
  injection hrun' with h
  injection h with h1 h2
  subst h1
  subst h2
  obtain ⟨y, hy, _, hd⟩ := hpt tid x hx
  refine ⟨y, hy, ?_, ?_⟩
  · intro hxc
    have hdmg : attack_dmg cfg a x = cfg.attack_damage := by
      unfold attack_dmg
      rw [if_pos hxc.symm]
    by_cases hdz : attack_dmg cfg a x = 0
    · rw [hd, if_neg (fun hcontra => hcontra.2.2 hdz), hdmg.symm.trans hdz]
    · rw [hd, if_pos ⟨hactive, hcone, hdz⟩, hdmg]
  · rw [hd]
    rw [add_sub_cancel_left]
    split
    · exact attack_dmg_le hpeak
    · exact hpeak

unseal Rat.add Rat.mul Rat.sub Rat.inv in
/-- Witness for claim C7's theorem at a concrete attack call: robot "A" at
the origin attacks; robot "B" at (1,0) is in the cone with truncated damage
10 > 0, gains 10, and receives the notification. -/
theorem attack_applies_damage_iff_positive_witness :
    ((0 : ℚ) ≤ cfg2.attack_damage) ∧
    (∃ y, wrobots7atk[1]? = some y ∧
      y.damage = wB7.damage +
        (if is_in_angle m0 wA7.coords wA7.heading cfg2.attack_angle wB7.coords = true ∧
            0 < attack_dmg cfg2 wA7 wB7 then attack_dmg cfg2 wA7 wB7 else 0) ∧
      (Event.attacked 1 wA7.className ∈ wevs7 ↔
        (is_in_angle m0 wA7.coords wA7.heading cfg2.attack_angle wB7.coords = true ∧
          0 < attack_dmg cfg2 wA7 wB7))) :=
  ⟨by decide,
   attack_applies_damage_iff_positive m0 cfg2 wrobots7 wrobots7atk wevs7 0 1 wA7 wB7
     (by decide) (by decide) (by decide) (by decide) (by decide)⟩

unseal Rat.add Rat.mul Rat.sub Rat.inv in
/-- Witness for claim C8's theorem at a concrete point-blank attack call:
robot "D" shares robot "C"'s exact position and gains exactly the peak 9. -/
theorem attack_point_blank_peak_and_never_exceeds_witness :
    ((0 : ℚ) ≤ cfg8.attack_damage) ∧
    (∃ y, wrobots8atk[1]? = some y ∧
      (wD8.coords = wC8.coords → y.damage = wD8.damage + cfg8.attack_damage) ∧
      y.damage - wD8.damage ≤ cfg8.attack_damage) :=
  ⟨by decide,
   attack_point_blank_peak_and_never_exceeds m0 cfg8 wrobots8 wrobots8atk wevs8 0 1 wC8 wD8
     (by decide) (by decide) (by decide) (by decide) (by decide) (by decide)⟩

unseal Rat.add Rat.mul Rat.sub Rat.inv in
/-- Claim C1 (code_bug evaluation).  The claim says the turn loop runs while
more than one robot is active and stops as soon as at most one robot remains
active.  The code does neither: (a) the active list is captured once before
the loop (game.py:233) and the guard re-reads only its fixed length, and (b)
any entered turn aborts inside `_move_robots` (game.py:191) before
completing.  First conjunct: a run with two robots, in which robot 0 kills
both robots point-blank during the very first radar notification, aborts
while executing turn 1 (it does not exit the loop cleanly with robot damages
at 100).  Second and third conjuncts: resuming the loop at turn 2 with the
captured list `[0, 1]` and both robots at damage 100 — a state in which the
set of robots with damage < 100 is empty — still starts turn 3 (the abort is
reported with turn counter 3 after radar was delivered to both destroyed
robots), instead of executing no further turn as the claim requires. -/
theorem turn_loop_neither_rechecks_active_set_nor_completes_a_turn :
    run_robots m0 cfg1 pol1 timesId (gameInit ["A", "B"] rands1) =
      .error (.unpackBumps, 1,
        [⟨"A", (5, 5), 7, 100, 0, some 0⟩, ⟨"B", (6, 5), 0, 100, 0, some 0⟩],
        [.started 0 (5, 5), .started 1 (6, 5),
         .radar_updated 0 [("A", (5, 5)), ("B", (6, 5))],
         .attacked 0 "A", .attacked 1 "A",
         .radar_updated 1 [("A", (5, 5)), ("B", (6, 5))]]) ∧
    active_robots
        [⟨"A", (5, 5), 7, 100, 0, some 0⟩, ⟨"B", (6, 5), 0, 100, 0, some 0⟩] = [] ∧
    turnLoop m0 cfg1 pol1 [0, 1] timesId 2
        [⟨"A", (5, 5), 7, 100, 0, some 0⟩, ⟨"B", (6, 5), 0, 100, 0, some 0⟩] [] =
      .error (.unpackBumps, 3,
        [⟨"A", (5, 5), 7, 100, 0, some 0⟩, ⟨"B", (6, 5), 0, 100, 0, some 0⟩],
        [.radar_updated 0 [("A", (5, 5)), ("B", (6, 5))],
         .radar_updated 1 [("A", (5, 5)), ("B", (6, 5))]]) := by
  exact ⟨by decide, by decide, by decide⟩

unseal Rat.add Rat.mul Rat.sub Rat.inv in
/-- Claim C2 (code_bug evaluation).  The claim says no execution of the turn
loop raises.  In a 10×10 arena, robot 0 at (5,5) sets speed 6 during the
first radar notification (heading 0), so its move segment (5,5)–(11,5)
crosses the right border transversally; the resulting non-empty intersection
map makes the unpacking loop at game.py:191 raise, and the run aborts during
turn 1 instead of reaching a terminal outcome. -/
theorem turn_raises_on_a_robot_border_collision :
    run_robots m0 cfg2 pol2 timesId (gameInit ["A", "B"] rands2) =
      .error (.unpackBumps, 1,
        [⟨"A", (5, 5), 6, 0, 0, some 0⟩, ⟨"B", (1, 1), 0, 0, 0, some 0⟩],
        [.started 0 (5, 5), .started 1 (1, 1),
         .radar_updated 0 [("A", (5, 5)), ("B", (1, 1))],
         .radar_updated 1 [("A", (5, 5)), ("B", (1, 1))]]) := by
  decide

unseal Rat.add Rat.mul Rat.sub Rat.inv in
/-- Claim C4 (code_bug evaluation).  The claim says a robot whose candidate
segment intersects more than one other segment is committed to the nearest
intersection.  Here robot 0's candidate segment (5,5)–(11,5) intersects both
robot 1's segment (first two conjuncts: at x = 7411/935 ≈ 7.93, nearer to
robot 0's start than the right-border crossing at x = 10) — yet the run
aborts while processing the intersections (game.py:191) and robot 0's
committed coordinates remain (5,5): no endpoint, nearest or otherwise, is
ever selected (the TODO at game.py:172 records that closest-intersection
selection is unimplemented). -/
theorem multiple_intersections_abort_instead_of_nearest_clip :
    seg_intersect (5, 5) (11, 5) (6, 2)
        (6 + 5 * (5403 / 10000), 2 + 5 * (8415 / 10000)) = some (7411 / 935, 5) ∧
    seg_intersect (5, 5) (11, 5) (10, 10) (10, 0) = some (10, 5) ∧
    (7411 / 935 : ℚ) < 10 ∧
    run_robots m4 cfg4 pol4 timesId (gameInit ["A", "B"] rands4) =
      .error (.unpackBumps, 1,
        [⟨"A", (5, 5), 6, 0, 0, some 0⟩, ⟨"B", (6, 2), 5, 0, 1, some 0⟩],
        [.started 0 (5, 5), .started 1 (6, 2),
         .radar_updated 0 [("A", (5, 5)), ("B", (6, 2))],
         .radar_updated 1 [("A", (5, 5)), ("B", (6, 2))]]) := by
  exact ⟨by decide, by decide, by decide, by decide⟩

unseal Rat.add Rat.mul Rat.sub Rat.inv in
/-- Claim C5 (code_bug evaluation).  The claim says a robot whose move was
clipped by a collision ends the turn with speed 0 and one `bumped`
notification.  Robot 0 at (5,5) with speed 20 and heading 0 would be clipped
at the right border (10,5), but the turn aborts at game.py:191: at the abort
point robot 0's speed is still 20 and no `bumped` notification was delivered
to anyone (`set_speed(a_id, 0)` and `bumped().send(...)` at game.py:219-220
are unreachable whenever an intersection exists). -/
theorem clipped_robot_keeps_speed_and_gets_no_bumped_notification :
    run_robots m0 cfg5 pol5 timesId (gameInit ["A", "B"] rands5) =
      .error (.unpackBumps, 1,
        [⟨"A", (5, 5), 20, 0, 0, some 0⟩, ⟨"B", (2, 8), 0, 0, 0, some 0⟩],
        [.started 0 (5, 5), .started 1 (2, 8),
         .radar_updated 0 [("A", (5, 5)), ("B", (2, 8))],
         .radar_updated 1 [("A", (5, 5)), ("B", (2, 8))]]) ∧
    (resultRobots (run_robots m0 cfg5 pol5 timesId
        (gameInit ["A", "B"] rands5))).map RobotRec.speed = [20, 0] ∧
    (resultEvents (run_robots m0 cfg5 pol5 timesId
        (gameInit ["A", "B"] rands5))).filter Event.isBumped = [] := by
  exact ⟨by decide, by decide, by decide⟩

unseal Rat.add Rat.mul Rat.sub Rat.inv in
/-- Claim C3 (counterexample).  The claim says damage never exceeds 100.  In
a run with peak attack damage 60 where robot 0 attacks twice during the
first radar notification (robot 1 sitting 1 unit away inside the cone), robot
1 — still active at damage 60 when the second attack lands — reaches damage
120 > 100; `Game.attack` (game.py:97) adds falloff damage without any upper
clamp.  (The damages are read off the state carried at the abort point of
turn 1's movement phase, i.e. at a point of the run.) -/
theorem attack_pushes_damage_to_120 :
    (resultRobots (run_robots m0 cfg3 pol3 timesId
      (gameInit ["A", "B"] rands3))).map RobotRec.damage = [120, 120] := by
  decide

/-- Claim C6 (counterexample).  The claim says no stored speed is ever
negative.  A single-robot run whose controller issues `set_speed 0 (-1)`
while handling `started` terminates normally with the robot's stored speed
equal to -1: `Game.set_speed` (game.py:66) clamps only from above with
`min(mps, max_speed)`. -/
theorem set_speed_stores_negative_minus_one :
    run_robots m0 cfg6 pol6 timesId (gameInit ["A"] rands6) =
      .ok (0, [⟨"A", (1, 2), -1, 0, 0, some 0⟩], [.started 0 (1, 2)]) ∧
    ((-1 : ℚ) < 0) := by
  exact ⟨by decide, by decide⟩

/-- Claim C6 (amended): throughout every run started from a fresh game with a
non-negative configured maximum speed — whatever the controllers command —
no robot's stored speed ever exceeds the maximum: `Game.set_speed` stores
`min(mps, max_speed)`, movement and attacks leave speeds unchanged, and the
bound holds of the robots carried by the outcome, normal or aborted.  (The
claimed lower bound 0 is refuted separately: there is no lower clamp.) -/
theorem speed_at_most_max (m : MathsOracle) (cfg : Settings) (pol : Policy)
    (times : ℕ → ℚ) (classNames : List String) (rands : ℕ → ℚ × ℚ)
    (hms : 0 ≤ cfg.max_speed) :
    ∀ r ∈ resultRobots (run_robots m cfg pol times (gameInit classNames rands)),
      r.speed ≤ cfg.max_speed := by
  refine exceptAllRun_resultRobots
    (run_robots_all m cfg pol times (fun r => r.speed ≤ cfg.max_speed)
      (fun r tv hq => hq) (fun r c tv hq => hq)
      (applyCommand_all m cfg _ (fun r v hq => hq)
        (fun r v _ => min_le_right v cfg.max_speed)
        (attack_all_of m cfg _ ?_))
      (gameInit classNames rands)
      (gameInit_allR classNames rands (fun name c => hms)))
  intro robots a x y j hx hs hd hall
  have : y.speed = x.speed := hs.2.2.1
  rw [this]
  exact hall x (List.getElem?_mem hx)

/-- Witness for claim C6's amended theorem at the run of the counterexample:
even after `set_speed 0 (-1)` the stored speed stays below the maximum 10. -/
theorem speed_at_most_max_witness :
    ((0 : ℚ) ≤ cfg6.max_speed) ∧
    (∀ r ∈ resultRobots (run_robots m0 cfg6 pol6 timesId (gameInit ["A"] rands6)),
      r.speed ≤ cfg6.max_speed) :=
  ⟨by decide, speed_at_most_max m0 cfg6 pol6 timesId ["A"] rands6 (by decide)⟩

/-- Claim C3 (amended): throughout every run started from a fresh game with a
non-negative configured peak — whatever the controllers command — every
robot's damage lies in `[0, 100 + peak)`: it starts at 0, each hit adds a
non-negative amount of at most the peak, and a hit robot was active (damage
below 100) when the attack call began.  The original upper bound 100 is
refuted by the counterexample: damage can end anywhere below `100 + peak`. -/
theorem damage_in_zero_to_100_plus_peak (m : MathsOracle) (cfg : Settings)
    (pol : Policy) (times : ℕ → ℚ) (classNames : List String)
    (rands : ℕ → ℚ × ℚ) (hpeak : 0 ≤ cfg.attack_damage) :
    ∀ r ∈ resultRobots (run_robots m cfg pol times (gameInit classNames rands)),
      0 ≤ r.damage ∧ r.damage < 100 + cfg.attack_damage := by
  refine exceptAllRun_resultRobots
    (run_robots_all m cfg pol times
      (fun r => 0 ≤ r.damage ∧ r.damage < 100 + cfg.attack_damage)
      (fun r tv hq => hq) (fun r c tv hq => hq)
      (applyCommand_all m cfg _ (fun r v hq => hq) (fun r v hq => hq)
        (attack_all_of m cfg _ ?_))
      (gameInit classNames rands)
      (gameInit_allR classNames rands (fun name c => by
        refine ⟨le_refl 0, ?_⟩
        show (0 : ℚ) < 100 + cfg.attack_damage
        linarith)))
  intro robots a x y j hx hs hd hall
  have hx_all := hall x (List.getElem?_mem hx)
  rw [hd]
  by_cases hc : j ∈ active_robots robots ∧ attack_hits m cfg a x
  · rw [if_pos hc]
    have hlt100 : x.damage < 100 := by
      obtain ⟨r0, hr0, hrd⟩ := mem_active_robots.mp hc.1
      rw [hx] at hr0
      cases hr0
      exact hrd
    have h1 := @attack_dmg_nonneg cfg a x hpeak
    have h2 := @attack_dmg_le cfg a x hpeak
    constructor
    · linarith [hx_all.1]
    · linarith
  · rw [if_neg hc]
    simpa using hx_all

/-- Witness for claim C3's amended theorem at the run of the counterexample:
with peak 60 the damages reached (120) stay below 100 + 60. -/
theorem damage_in_zero_to_100_plus_peak_witness :
    ((0 : ℚ) ≤ cfg3.attack_damage) ∧
    (∀ r ∈ resultRobots (run_robots m0 cfg3 pol3 timesId (gameInit ["A", "B"] rands3)),
      0 ≤ r.damage ∧ r.damage < 100 + cfg3.attack_damage) :=
  ⟨by decide,
   damage_in_zero_to_100_plus_peak m0 cfg3 pol3 timesId ["A", "B"] rands3 (by decide)⟩

/-- Claim C9: a simulation started with exactly one robot executes zero turns
(the captured active list has length 1, so the loop guard fails immediately
and the turn counter stays 0) and terminates with that robot as sole winner;
`main` then prints the single-survivor message naming it and its damage 0.
Stated for controllers that issue no commands while handling `started` (the
only notification delivered in such a run). -/
theorem single_robot_wins_at_turn_zero (m : MathsOracle) (cfg : Settings)
    (pol : Policy) (times : ℕ → ℚ) (name : String) (rands : ℕ → ℚ × ℚ)
    (hquiet : ∀ (i : ℕ) (c : ℚ × ℚ) (s : List RobotRec), pol.onStarted i c s = []) :
    run_robots m cfg pol times (gameInit [name] rands) =
      .ok (0, [⟨name, rands 0, 0, 0, 0, some (times 0)⟩], [.started 0 (rands 0)]) ∧
    (run m cfg pol times (gameInit [name] rands)).map mainMessage =
      .ok ("The winner is " ++ name ++ " (damage 0)") := by
  have hstart : startedPhase m cfg pol (times 0) (gameInit [name] rands) =
      .ok ([⟨name, rands 0, 0, 0, 0, some (times 0)⟩], [.started 0 (rands 0)]) := by
    unfold startedPhase startedLoop
    rw [show (List.range (gameInit [name] rands).length) = [0] from rfl]
    dsimp only
    rw [show (gameInit [name] rands)[0]? =
        some ⟨name, rands 0, 0, 0, 0, none⟩ from rfl]
    dsimp only
    rw [hquiet]
    rfl
  have hrr : run_robots m cfg pol times (gameInit [name] rands) =
      .ok (0, [⟨name, rands 0, 0, 0, 0, some (times 0)⟩], [.started 0 (rands 0)]) := by
    unfold run_robots
    rw [hstart]
    dsimp only
    rw [show active_robots [⟨name, rands 0, 0, 0, 0, some (times 0)⟩] = [0] from rfl]
    unfold turnLoop
    exact turnLoopFuel_guard_false m cfg pol [0] times 0 _ _ (by simp) _
  refine ⟨hrr, ?_⟩
  have hw : run m cfg pol times (gameInit [name] rands) =
      .ok [((name ++ " (damage ") ++ "0") ++ ")"] := by
    unfold run
    rw [hrr]
    rfl
  rw [hw]
  show Except.ok ("The winner is " ++ (((name ++ " (damage ") ++ "0") ++ ")")) =
    Except.ok (("The winner is " ++ name) ++ " (damage 0)")
  rw [String.append_assoc name " (damage " "0"]
  rw [String.append_assoc name (" (damage " ++ "0") ")"]
  rw [← String.append_assoc "The winner is " name ((" (damage " ++ "0") ++ ")")]
  rfl

/-- Witness for claim C9's theorem with a concrete robot "Alice" started at
(3,4): zero turns and the winner message. -/
theorem single_robot_wins_at_turn_zero_witness :
    (∀ (i : ℕ) (c : ℚ × ℚ) (s : List RobotRec), trivPol.onStarted i c s = []) ∧
    (run_robots m0 cfg2 trivPol timesId (gameInit ["Alice"] (fun _ => (3, 4))) =
      .ok (0, [⟨"Alice", (3, 4), 0, 0, 0, some 0⟩], [.started 0 (3, 4)]) ∧
    (run m0 cfg2 trivPol timesId (gameInit ["Alice"] (fun _ => (3, 4)))).map mainMessage =
      .ok ("The winner is " ++ "Alice" ++ " (damage 0)")) :=
  ⟨fun _ _ _ => rfl,
   single_robot_wins_at_turn_zero m0 cfg2 trivPol timesId "Alice" (fun _ => (3, 4))
     (fun _ _ _ => rfl)⟩

/-- Claim C10: immediately after construction, every robot record has speed
0.0, damage 0, heading 0.0 and no last-move timestamp, and — under the
`randrange(0, bound)` contract for the injected draws — coordinates inside
the arena, so every robot starts active and in bounds. -/
theorem gameInit_initial_records (classNames : List String)
    (rands : ℕ → ℚ × ℚ) (cfg : Settings)
    (hr : ∀ i, i < classNames.length →
      0 ≤ (rands i).1 ∧ (rands i).1 < cfg.battlefield_size.1 ∧
      0 ≤ (rands i).2 ∧ (rands i).2 < cfg.battlefield_size.2) :
    ∀ r ∈ gameInit classNames rands,
      r.speed = 0 ∧ r.damage = 0 ∧ r.heading = 0 ∧ r.then' = none ∧
      0 ≤ r.coords.1 ∧ r.coords.1 < cfg.battlefield_size.1 ∧
      0 ≤ r.coords.2 ∧ r.coords.2 < cfg.battlefield_size.2 ∧
      r.damage < 100 := by
  intro r hmem
  unfold gameInit at hmem
  simp only [List.mem_map] at hmem
  obtain ⟨⟨i, nm⟩, hp, rfl⟩ := hmem
  have hget : classNames[i]? = some nm := by
    simpa using List.mk_mem_enum_iff_getElem?.mp hp
  have hlt : i < classNames.length := (List.getElem?_eq_some.mp hget).1
  obtain ⟨h1, h2, h3, h4⟩ := hr i hlt
  exact ⟨rfl, rfl, rfl, rfl, h1, h2, h3, h4, by norm_num⟩

/-- Witness for claim C10's theorem: a two-robot game in a 10×10 arena with
draws (3,4) and (7,2). -/
theorem gameInit_initial_records_witness :
    (∀ i, i < (["A", "B"] : List String).length →
      0 ≤ ((fun j => if j = 0 then ((3 : ℚ), (4 : ℚ)) else (7, 2)) i).1 ∧
      ((fun j => if j = 0 then ((3 : ℚ), (4 : ℚ)) else (7, 2)) i).1 < cfg2.battlefield_size.1 ∧
      0 ≤ ((fun j => if j = 0 then ((3 : ℚ), (4 : ℚ)) else (7, 2)) i).2 ∧
      ((fun j => if j = 0 then ((3 : ℚ), (4 : ℚ)) else (7, 2)) i).2 < cfg2.battlefield_size.2) ∧
    (∀ r ∈ gameInit ["A", "B"] (fun j => if j = 0 then ((3 : ℚ), (4 : ℚ)) else (7, 2)),
      r.speed = 0 ∧ r.damage = 0 ∧ r.heading = 0 ∧ r.then' = none ∧
      0 ≤ r.coords.1 ∧ r.coords.1 < cfg2.battlefield_size.1 ∧
      0 ≤ r.coords.2 ∧ r.coords.2 < cfg2.battlefield_size.2 ∧
      r.damage < 100) :=
  ⟨fun i hi => by
    have h2 : i < 2 := by simpa using hi
    interval_cases i
    · exact ⟨by decide, by decide, by decide, by decide⟩
    · exact ⟨by decide, by decide, by decide, by decide⟩,
   gameInit_initial_records ["A", "B"]
     (fun j => if j = 0 then ((3 : ℚ), (4 : ℚ)) else (7, 2)) cfg2
     (fun i hi => by
       have h2 : i < 2 := by simpa using hi
       interval_cases i
       · exact ⟨by decide, by decide, by decide, by decide⟩
       · exact ⟨by decide, by decide, by decide, by decide⟩)⟩

end RRobot
